import Mathlib

/-!
Shallow embedding of the ofxEasyOsc listener-dispatch registry
(`src/ofxEasyOsc.h` and `src/ofxEasyOscTemplates.h`).

Wire messages are modelled as an address plus an ordered list of typed
arguments.  The payload of a wire float is modelled as a rational number;
float rounding is not modelled (no statement below depends on it).  The
transport queue drained by `ofxEasyOscReceiver::update` is passed to the
model as an explicit list of pending messages.
-/

/-- A wire argument of an OSC message.  `intArg`, `floatArg` and `stringArg`
model OFXOSC_TYPE_INT32, OFXOSC_TYPE_FLOAT and OFXOSC_TYPE_STRING; `otherArg`
models every other tag of the underlying transport (blob, midi, ...), all of
which the ofxEasyOsc decoders treat through their `default:` switch branch. -/
inductive OscArg where
  | intArg (v : Int)
  | floatArg (q : ℚ)
  | stringArg (s : String)
  | otherArg
deriving DecidableEq, Repr

/-- An incoming OSC message: address plus ordered argument list. -/
structure OscMessage where
  address : String
  args : List OscArg
deriving DecidableEq, Repr

/-- Argument access as the decoders see it.  `ofxOscMessage::getArgType`
returns an out-of-bounds sentinel for an index past the end, which every
`switch` in the decoders routes to its `default:` branch, so an out-of-range
index behaves exactly like `otherArg`. -/
def argAt (msg : OscMessage) (index : Nat) : OscArg :=
  msg.args.getD index .otherArg

/-- Truncation toward zero of a rational, modelling the C++ conversion of a
floating-point value to an integer type. -/
def ratTrunc (q : ℚ) : Int := Int.tdiv q.num (q.den : Int)

/-- The C++ conversion `int` → `unsigned char`: reduction modulo 2^8. -/
def intToUChar (v : Int) : Nat := (v % 256).toNat

/-- The C++ conversion `float` → `unsigned char`: truncation toward zero and
then reduction modulo 2^8.  (For a float whose truncation is outside
[0, 256) this conversion is undefined behaviour in C++; the model uses the
same wrap-around the integer path exhibits.) -/
def floatToUChar (q : ℚ) : Nat := (ratTrunc q % 256).toNat

/-- Modelled from the spec: the external framework helper `ofToString`
applied to an `int` renders it in decimal (default stream formatting). -/
def ofToStringInt (v : Int) : String := toString v

/-- Modelled from the spec: the external framework helper `ofToString`
applied to a `float` uses default stream numeric formatting; the model
renders the rational payload.  No statement below depends on the digits. -/
def ofToStringFloat (q : ℚ) : String := toString q

/-- Embeds `ofxOscListener::getData(msg, index, int& dest)`
(ofxEasyOscTemplates.h, lines 121-135).  The destination is passed in and
returned, modelling the C++ reference parameter: when the message has no
arguments the body is skipped and the destination keeps its prior value. -/
def getDataInt (msg : OscMessage) (index : Nat) (dest : Int) : Int :=
  if msg.args.length = 0 then dest
  else
    match argAt msg index with
    | .floatArg q => ratTrunc q
    | .intArg v => v
    | _ => 0

/-- Embeds `ofxOscListener::getData(msg, index, unsigned char& dest)`
(ofxEasyOscTemplates.h, lines 105-119). -/
def getDataUChar (msg : OscMessage) (index : Nat) (dest : Nat) : Nat :=
  if msg.args.length = 0 then dest
  else
    match argAt msg index with
    | .floatArg q => floatToUChar q
    | .intArg v => intToUChar v
    | _ => 0

/-- Embeds `ofxOscListener::getData(msg, index, float& dest)`
(ofxEasyOscTemplates.h, lines 137-151).  The `static_cast<float>(int)` is
modelled as the exact cast into ℚ (float rounding not modelled). -/
def getDataFloat (msg : OscMessage) (index : Nat) (dest : ℚ) : ℚ :=
  if msg.args.length = 0 then dest
  else
    match argAt msg index with
    | .floatArg q => q
    | .intArg v => (v : ℚ)
    | _ => 0

/-- Embeds `ofxOscListener::getData(msg, index, string& dest)`
(ofxEasyOscTemplates.h, lines 169-185).  Note that the `default:` branch of
this overload performs no assignment, so the destination keeps its prior
value for a wire type other than string, float or int32. -/
def getDataString (msg : OscMessage) (index : Nat) (dest : String) : String :=
  if msg.args.length = 0 then dest
  else
    match argAt msg index with
    | .stringArg s => s
    | .floatArg q => ofToStringFloat q
    | .intArg v => ofToStringInt v
    | _ => dest

/-- Models `ofVec2f`; its default constructor yields (0, 0). -/
structure Vec2 where
  x : ℚ
  y : ℚ
deriving DecidableEq, Repr

/-- Models `ofVec3f`; its default constructor yields (0, 0, 0). -/
structure Vec3 where
  x : ℚ
  y : ℚ
  z : ℚ
deriving DecidableEq, Repr

/-- Models `ofVec4f`; its default constructor yields (0, 0, 0, 0). -/
structure Vec4 where
  x : ℚ
  y : ℚ
  z : ℚ
  w : ℚ
deriving DecidableEq, Repr

/-- Models `ofMatrix3x3` as its 9 entries in `operator[]` order; the default
constructor zero-fills all entries. -/
structure Mat3 where
  entries : List ℚ
deriving DecidableEq, Repr

/-- Models `ofMatrix4x4` as its 16 entries in `getPtr()` order; the default
constructor builds the identity matrix. -/
structure Mat4 where
  entries : List ℚ
deriving DecidableEq, Repr

/-- Default-constructed `ofVec2f`. -/
def vec2Default : Vec2 := ⟨0, 0⟩

/-- Default-constructed `ofVec3f`. -/
def vec3Default : Vec3 := ⟨0, 0, 0⟩

/-- Default-constructed `ofVec4f`. -/
def vec4Default : Vec4 := ⟨0, 0, 0, 0⟩

/-- Default-constructed `ofMatrix3x3` (all zeros). -/
def mat3Default : Mat3 := ⟨List.replicate 9 0⟩

/-- Default-constructed `ofMatrix4x4` (identity). -/
def mat4Default : Mat4 := ⟨[1,0,0,0, 0,1,0,0, 0,0,1,0, 0,0,0,1]⟩

/-- Embeds `ofxOscListener::getData(msg, index, ofVec2f& dest)`
(ofxEasyOscTemplates.h, lines 187-192).  The guard compares the total
argument count with 2; when it fails the destination is left untouched. -/
def getDataVec2 (msg : OscMessage) (index : Nat) (dest : Vec2) : Vec2 :=
  if 2 ≤ msg.args.length then
    { x := getDataFloat msg index dest.x
      y := getDataFloat msg (index + 1) dest.y }
  else dest

/-- Embeds `ofxOscListener::getData(msg, index, ofVec3f& dest)`
(ofxEasyOscTemplates.h, lines 194-200). -/
def getDataVec3 (msg : OscMessage) (index : Nat) (dest : Vec3) : Vec3 :=
  if 3 ≤ msg.args.length then
    { x := getDataFloat msg index dest.x
      y := getDataFloat msg (index + 1) dest.y
      z := getDataFloat msg (index + 2) dest.z }
  else dest

/-- Embeds `ofxOscListener::getData(msg, index, ofVec4f& dest)`
(ofxEasyOscTemplates.h, lines 202-209). -/
def getDataVec4 (msg : OscMessage) (index : Nat) (dest : Vec4) : Vec4 :=
  if 4 ≤ msg.args.length then
    { x := getDataFloat msg index dest.x
      y := getDataFloat msg (index + 1) dest.y
      z := getDataFloat msg (index + 2) dest.z
      w := getDataFloat msg (index + 3) dest.w }
  else dest

/-- Embeds `ofxOscListener::getData(msg, index, ofMatrix3x3& dest)`
(ofxEasyOscTemplates.h, lines 211-217): a loop assigning `dest[i]` from
argument `index + i` for i = 0..8, guarded by a total count of at least 9. -/
def getDataMat3 (msg : OscMessage) (index : Nat) (dest : Mat3) : Mat3 :=
  if 9 ≤ msg.args.length then
    ⟨(List.range 9).map (fun i => getDataFloat msg (index + i) (dest.entries.getD i 0))⟩
  else dest

/-- Embeds `ofxOscListener::getData(msg, index, ofMatrix4x4& dest)`
(ofxEasyOscTemplates.h, lines 219-225): the loop only assigns the first 12
of the 16 entries, guarded by a total count of at least 12; entries 12-15
are never written. -/
def getDataMat4 (msg : OscMessage) (index : Nat) (dest : Mat4) : Mat4 :=
  if 12 ≤ msg.args.length then
    ⟨(List.range 16).map (fun i =>
      if i < 12 then getDataFloat msg (index + i) (dest.entries.getD i 0)
      else dest.entries.getD i 0)⟩
  else dest

/-- Models `Container::resize(len)` of the STL containers used for sequence
destinations: the first `len` existing elements are kept, and any new
elements are default-constructed. -/
def resize {α : Type} (dest : List α) (len : Nat) (dflt : α) : List α :=
  dest.take len ++ List.replicate (len - dest.length) dflt

/-- Embeds the scalar-container overload
`ofxOscListener::getData(msg, index, Container<T>& dest)`
(ofxEasyOscTemplates.h, lines 228-237): resize to the total argument count
and decode element i from argument i, each element from its own prior
(resized) value. -/
def getDataContainer {α : Type} (decodeElem : OscMessage → Nat → α → α)
    (dflt : α) (msg : OscMessage) (dest : List α) : List α :=
  (List.range msg.args.length).map
    (fun i => decodeElem msg i ((resize dest msg.args.length dflt).getD i dflt))

/-- Embeds `ofxOscListener::getVec(msg, dest, size)`
(ofxEasyOscTemplates.h, lines 240-251): the element count is the integer
quotient of the total argument count by the element arity, the container is
resized to that count, and element i is decoded starting at argument
index i * size. -/
def getVec {α : Type} (decodeElem : OscMessage → Nat → α → α) (dflt : α)
    (size : Nat) (msg : OscMessage) (dest : List α) : List α :=
  (List.range (msg.args.length / size)).map
    (fun i => decodeElem msg (i * size)
      ((resize dest (msg.args.length / size) dflt).getD i dflt))

/-- Embeds the `Container<ofVec2f>` overload (ofxEasyOscTemplates.h, 52-55). -/
def getDataContainerVec2 (msg : OscMessage) (dest : List Vec2) : List Vec2 :=
  getVec getDataVec2 vec2Default 2 msg dest

/-- Embeds the `Container<ofVec3f>` overload (ofxEasyOscTemplates.h, 56-60). -/
def getDataContainerVec3 (msg : OscMessage) (dest : List Vec3) : List Vec3 :=
  getVec getDataVec3 vec3Default 3 msg dest

/-- Embeds the `Container<ofVec4f>` overload (ofxEasyOscTemplates.h, 61-65). -/
def getDataContainerVec4 (msg : OscMessage) (dest : List Vec4) : List Vec4 :=
  getVec getDataVec4 vec4Default 4 msg dest

/-- Embeds the `Container<ofMatrix3x3>` overload (ofxEasyOscTemplates.h, 66-70). -/
def getDataContainerMat3 (msg : OscMessage) (dest : List Mat3) : List Mat3 :=
  getVec getDataMat3 mat3Default 9 msg dest

/-- Embeds the `Container<ofMatrix4x4>` overload (ofxEasyOscTemplates.h, 71-75). -/
def getDataContainerMat4 (msg : OscMessage) (dest : List Mat4) : List Mat4 :=
  getVec getDataMat4 mat4Default 12 msg dest

/-- Embeds the `Container<T>` scalar overload instantiated at `T = int`. -/
def getDataContainerInt (msg : OscMessage) (dest : List Int) : List Int :=
  getDataContainer getDataInt 0 msg dest

/-- Tag standing for the C++ type `int` among the template instantiations of
the listener classes. -/
def intTag : Nat := 0

/-- Tag standing for the C++ type `const ofxOscMessage&`, the argument type
used by the default-listener wrappers. -/
def msgTag : Nat := 1

/-- Models the `ofxOscListener` class hierarchy (ofxEasyOscTemplates.h) as a
closed sum.  Template instantiations are represented by a numeric type tag
`ty` (for `ofxOscVariable<T>` the tag encodes T, for `ofxOscFunction` the
pair of return and argument type, for `ofxOscMemberFunction` the full
triple); object addresses, variable addresses and function pointers are
represented by numeric identities. -/
inductive ofxOscListener where
  | var (ty : Nat) (loc : Nat)
  | func (ty : Nat) (fptr : Nat)
  | lambda (ty : Nat) (id : Nat)
  | member (ty : Nat) (obj : Nat) (fptr : Nat)
deriving DecidableEq, Repr

/-- Embeds the virtual `compare` methods: a `dynamic_cast` to the exact
template instantiation (equality of type tags and of the variant) followed
by identity comparison of the stored pointers; `ofxOscLambdaFunction`
overrides `compare` to return false unconditionally
(ofxEasyOscTemplates.h, lines 269-275, 297-303, 320-326, 349-351, 371-373,
401-407, 426-432). -/
def ofxOscListener.compare : ofxOscListener → ofxOscListener → Bool
  | .var t1 l1, .var t2 l2 => t1 == t2 && l1 == l2
  | .func t1 p1, .func t2 p2 => t1 == t2 && p1 == p2
  | .member t1 o1 p1, .member t2 o2 p2 => t1 == t2 && (o1 == o2 && p1 == p2)
  | .lambda _ _, _ => false
  | _, _ => false

/-- Embeds the virtual `isLambda` method (ofxEasyOscTemplates.h, lines
23-25, 352-354, 374-376). -/
def ofxOscListener.isLambda : ofxOscListener → Bool
  | .lambda _ _ => true
  | _ => false

/-- The `unordered_map<string, list<unique_ptr<ofxOscListener>>>` of the
receiver, modelled as an association list with at most one entry per key
(hash order is irrelevant to every claim). -/
abbrev AddressMap := List (String × List ofxOscListener)

/-- Embeds `addressMap.find(address)`. -/
def mapFind : AddressMap → String → Option (List ofxOscListener)
  | [], _ => none
  | (k, v) :: rest, a => if k = a then some v else mapFind rest a

/-- The listener list stored at an address, empty when absent. -/
def mapGet (m : AddressMap) (a : String) : List ofxOscListener :=
  (mapFind m a).getD []

/-- Embeds `addressMap[address].push_back(listener)` as performed by every
`ofxEasyOscReceiver::add` overload (ofxEasyOsc.h, lines 432-471):
`operator[]` creates the entry when absent, and the new listener is
appended at the back of the entry's list. -/
def addListener : AddressMap → String → ofxOscListener → AddressMap
  | [], a, l => [(a, [l])]
  | (k, v) :: rest, a, l =>
    if k = a then (k, v ++ [l]) :: rest else (k, v) :: addListener rest a l

/-- Embeds `addressMap[address]` of the destination-less
`ofxEasyOscReceiver::add(address)` (ofxEasyOsc.h, lines 427-430). -/
def ensureAddress : AddressMap → String → AddressMap
  | [], a => [(a, [])]
  | (k, v) :: rest, a =>
    if k = a then (k, v) :: rest else (k, v) :: ensureAddress rest a

/-- Embeds `ofxEasyOscReceiver::searchAndRemove` (ofxEasyOsc.h, lines
555-569): when the address is present, erase from its list exactly the
listeners whose `compare` against the test object returns true. -/
def searchAndRemove : AddressMap → String → ofxOscListener → AddressMap
  | [], _, _ => []
  | (k, v) :: rest, a, test =>
    if k = a then (k, v.filter (fun l => ! l.compare test)) :: rest
    else (k, v) :: searchAndRemove rest a test

/-- Embeds `ofxEasyOscReceiver::searchAndRemoveLambdas` (ofxEasyOsc.h,
lines 571-585). -/
def searchAndRemoveLambdas : AddressMap → String → AddressMap
  | [], _ => []
  | (k, v) :: rest, a =>
    if k = a then (k, v.filter (fun l => ! l.isLambda)) :: rest
    else (k, v) :: searchAndRemoveLambdas rest a

/-- The external storage written by int-typed variable listeners, indexed by
the numeric identity of the variable's address.  Variable listeners of
other C++ types write to storage disjoint from this store, and function,
lambda and member listeners invoke callables whose effects lie outside the
registry-managed storage; both are therefore modelled as leaving the store
unchanged. -/
abbrev Store := Nat → Int

/-- Embeds the effect of the virtual `dispatch` methods on the int store.
`ofxOscVariable<int>::dispatch` (ofxEasyOscTemplates.h, lines 264-268)
writes `getData(msg, 0, *var)` into its variable (the null check of the
source cannot fire in the model, locations are always valid). -/
def dispatchStore (s : Store) (l : ofxOscListener) (msg : OscMessage) : Store :=
  match l with
  | .var t loc =>
    if t = intTag then fun n => if n = loc then getDataInt msg 0 (s loc) else s n
    else s
  | _ => s

/-- The argument value delivered by `ofxOscFunction<TReturn, int>::dispatch`
and `ofxOscLambdaFunction<int>::dispatch` (ofxEasyOscTemplates.h, lines
291-296 and 343-348): a default-initialized `int arg = {}` passed through
`getData(msg, 0, arg)`. -/
def funcDeliveredInt (msg : OscMessage) : Int := getDataInt msg 0 0

/-- A dispatch event of the poll loop: which listener was invoked, with
which message. -/
abbrev Event := ofxOscListener × OscMessage

/-- Models `ofxEasyOscReceiver` (ofxEasyOsc.h, lines 225-359).  The wrapped
`ofxOscReceiver` transport is not part of the state; its pending queue is
passed to `update` explicitly. -/
structure ofxEasyOscReceiver where
  addressMap : AddressMap
  defaultListener : Option ofxOscListener
  incomingMessages : List String
  bCount : Bool

/-- One iteration of the `ofxEasyOscReceiver::update` while-loop, store
effect (ofxEasyOsc.h, lines 376-387): when the address is found, dispatch
the message to every listener of its list in order; otherwise dispatch to
the default listener when it is set. -/
def stepStore (r : ofxEasyOscReceiver) (s : Store) (msg : OscMessage) : Store :=
  match mapFind r.addressMap msg.address with
  | some ls => ls.foldl (fun st l => dispatchStore st l msg) s
  | none =>
    match r.defaultListener with
    | some d => dispatchStore s d msg
    | none => s

/-- One iteration of the `ofxEasyOscReceiver::update` while-loop, ordered
trace of listener invocations (ofxEasyOsc.h, lines 376-387). -/
def stepEvents (r : ofxEasyOscReceiver) (msg : OscMessage) : List Event :=
  match mapFind r.addressMap msg.address with
  | some ls => ls.map (fun l => (l, msg))
  | none =>
    match r.defaultListener with
    | some d => [(d, msg)]
    | none => []

/-- One iteration of the `ofxEasyOscReceiver::update` while-loop, receiver
effect (ofxEasyOsc.h, lines 389-392): when counting is enabled, insert the
address into the multiset. -/
def stepRecv (r : ofxEasyOscReceiver) (msg : OscMessage) : ofxEasyOscReceiver :=
  if r.bCount then
    { r with incomingMessages := r.incomingMessages ++ [msg.address] }
  else r

/-- The message-processing loop of `ofxEasyOscReceiver::update`
(ofxEasyOsc.h, lines 370-393).  Returns the receiver, the store, and the
ordered trace of listener invocations. -/
def updateLoop : ofxEasyOscReceiver → Store → List OscMessage →
    ofxEasyOscReceiver × Store × List Event
  | r, s, [] => (r, s, [])
  | r, s, msg :: rest =>
    let next := updateLoop (stepRecv r msg) (stepStore r s msg) rest
    (next.1, next.2.1, stepEvents r msg ++ next.2.2)

/-- Embeds `ofxEasyOscReceiver::update` (ofxEasyOsc.h, lines 367-394): the
multiset of incoming messages is cleared unconditionally at the top, then
the pending messages are processed in order. -/
def ofxEasyOscReceiver.update (r : ofxEasyOscReceiver) (s : Store)
    (pending : List OscMessage) : ofxEasyOscReceiver × Store × List Event :=
  updateLoop { r with incomingMessages := [] } s pending

/-- Embeds `ofxEasyOscReceiver::gotMessage` (ofxEasyOsc.h, lines 402-408):
the multiset count when counting is enabled, the sentinel -1 otherwise. -/
def ofxEasyOscReceiver.gotMessage (r : ofxEasyOscReceiver) (address : String) : Int :=
  if r.bCount then (r.incomingMessages.count address : Int) else -1

/-- Embeds a registration overload `ofxEasyOscReceiver::add(address, ...)`
(ofxEasyOsc.h, lines 432-471): every overload wraps its destination into
the matching listener variant, appends it, and executes `return *this;`.
The Bool records whether the body executed a return statement. -/
def ofxEasyOscReceiver.addL (r : ofxEasyOscReceiver) (address : String)
    (l : ofxOscListener) : ofxEasyOscReceiver × Bool :=
  ({ r with addressMap := addListener r.addressMap address l }, true)

/-- Embeds `ofxEasyOscReceiver::remove(address, T* var)` (ofxEasyOsc.h,
lines 476-482): build a dummy `ofxOscVariable<T>` and search-and-remove. -/
def ofxEasyOscReceiver.removeVar (r : ofxEasyOscReceiver) (address : String)
    (ty loc : Nat) : ofxEasyOscReceiver × Bool :=
  ({ r with addressMap := searchAndRemove r.addressMap address (.var ty loc) }, true)

/-- Embeds `ofxEasyOscReceiver::removeAll` (ofxEasyOsc.h, lines 529-531):
the body is `addressMap.clear();` with NO return statement, although the
function is declared to return `ofxEasyOscReceiver&` (undefined behaviour
in C++).  The Bool records whether the body executed `return *this;`. -/
def ofxEasyOscReceiver.removeAll (r : ofxEasyOscReceiver) :
    ofxEasyOscReceiver × Bool :=
  ({ r with addressMap := [] }, false)

/-- Embeds the function-pointer overload of
`ofxEasyOscReceiver::setDefaultListener` (ofxEasyOsc.h, lines 535-537):
the body assigns the default listener and has NO return statement. -/
def ofxEasyOscReceiver.setDefaultListenerFunc (r : ofxEasyOscReceiver)
    (fptr : Nat) : ofxEasyOscReceiver × Bool :=
  ({ r with defaultListener := some (.func msgTag fptr) }, false)

/-- Embeds the lambda overload of `ofxEasyOscReceiver::setDefaultListener`
(ofxEasyOsc.h, lines 539-541): NO return statement. -/
def ofxEasyOscReceiver.setDefaultListenerLambda (r : ofxEasyOscReceiver)
    (id : Nat) : ofxEasyOscReceiver × Bool :=
  ({ r with defaultListener := some (.lambda msgTag id) }, false)

/-- Embeds the member-function overload of
`ofxEasyOscReceiver::setDefaultListener` (ofxEasyOsc.h, lines 543-546):
NO return statement. -/
def ofxEasyOscReceiver.setDefaultListenerMember (r : ofxEasyOscReceiver)
    (obj fptr : Nat) : ofxEasyOscReceiver × Bool :=
  ({ r with defaultListener := some (.member msgTag obj fptr) }, false)

/-- Embeds `ofxEasyOscReceiver::removeDefaultListener` (ofxEasyOsc.h, lines
549-551): the body is `defaultListener = nullptr;` with NO return
statement. -/
def ofxEasyOscReceiver.removeDefaultListener (r : ofxEasyOscReceiver) :
    ofxEasyOscReceiver × Bool :=
  ({ r with defaultListener := none }, false)

/-! Helper lemmas. -/

lemma resize_length {α : Type} (dest : List α) (len : Nat) (dflt : α) :
    (resize dest len dflt).length = len := by
  simp [resize]
  omega

lemma range_map_getD {β : Type} (f : Nat → β) (len i : Nat) (d : β)
    (h : i < len) : ((List.range len).map f).getD i d = f i := by
  have hl : i < ((List.range len).map f).length := by simpa using h
  rw [List.getD_eq_getElem _ _ hl]
  simp

lemma getVec_length {α : Type} (de : OscMessage → Nat → α → α) (dflt : α)
    (size : Nat) (msg : OscMessage) (dest : List α) :
    (getVec de dflt size msg dest).length = msg.args.length / size := by
  simp [getVec]

lemma getVec_getD {α : Type} (de : OscMessage → Nat → α → α) (dflt : α)
    (size : Nat) (msg : OscMessage) (dest : List α) (i : Nat)
    (h : i < msg.args.length / size) :
    (getVec de dflt size msg dest).getD i dflt =
      de msg (i * size)
        ((resize dest (msg.args.length / size) dflt).getD i dflt) := by
  unfold getVec
  exact range_map_getD _ _ _ _ h

lemma getDataContainer_length {α : Type} (de : OscMessage → Nat → α → α)
    (dflt : α) (msg : OscMessage) (dest : List α) :
    (getDataContainer de dflt msg dest).length = msg.args.length := by
  simp [getDataContainer]

lemma getDataContainer_getD {α : Type} (de : OscMessage → Nat → α → α)
    (dflt : α) (msg : OscMessage) (dest : List α) (i : Nat)
    (h : i < msg.args.length) :
    (getDataContainer de dflt msg dest).getD i dflt =
      de msg i ((resize dest msg.args.length dflt).getD i dflt) := by
  unfold getDataContainer
  exact range_map_getD _ _ _ _ h

/-! Claim C3: byte decoding. -/

/-- Claim C3, counterexample: the byte decoder does NOT clamp.  A wire
integer 300 decoded into a byte destination yields 300 mod 256 = 44, not
the clamped value 255. -/
theorem byte_decode_not_clamped_cex :
    getDataUChar ⟨"/b", [.intArg 300]⟩ 0 0 = 44 ∧ (44 : Nat) ≠ 255 := by
  constructor
  · rfl
  · decide

/-- Claim C3 (amended): for a message with at least one argument, decoding a
byte destination converts a wire integer by reduction modulo 256 (C++
unsigned wrap-around, not clamping), converts a wire float by truncation
toward zero followed by the same reduction, and yields 0 for any other wire
type; the result is always below 256. -/
theorem byte_decode_mod256 (msg : OscMessage) (index : Nat) (dest : Nat)
    (h : msg.args.length ≠ 0) :
    getDataUChar msg index dest < 256 ∧
    (∀ v : Int, argAt msg index = .intArg v →
      (getDataUChar msg index dest : Int) = v % 256) ∧
    (∀ q : ℚ, argAt msg index = .floatArg q →
      (getDataUChar msg index dest : Int) = ratTrunc q % 256) ∧
    (∀ s : String, argAt msg index = .stringArg s →
      getDataUChar msg index dest = 0) ∧
    (argAt msg index = .otherArg → getDataUChar msg index dest = 0) := by
  refine ⟨?_, ?_, ?_, ?_, ?_⟩
  · unfold getDataUChar
    rw [if_neg h]
    cases argAt msg index with
    | intArg v =>
      simp only [intToUChar]
      have h1 : 0 ≤ v % 256 := Int.emod_nonneg v (by norm_num)
      have h2 : v % 256 < 256 := Int.emod_lt_of_pos v (by norm_num)
      omega
    | floatArg q =>
      simp only [floatToUChar]
      have h1 : 0 ≤ ratTrunc q % 256 := Int.emod_nonneg _ (by norm_num)
      have h2 : ratTrunc q % 256 < 256 := Int.emod_lt_of_pos _ (by norm_num)
      omega
    | stringArg s => norm_num
    | otherArg => norm_num
  · intro v hv
    unfold getDataUChar
    rw [if_neg h, hv]
    simp only [intToUChar]
    have h1 : 0 ≤ v % 256 := Int.emod_nonneg v (by norm_num)
    omega
  · intro q hq
    unfold getDataUChar
    rw [if_neg h, hq]
    simp only [floatToUChar]
    have h1 : 0 ≤ ratTrunc q % 256 := Int.emod_nonneg _ (by norm_num)
    omega
  · intro s hs
    unfold getDataUChar
    rw [if_neg h, hs]
  · intro ho
    unfold getDataUChar
    rw [if_neg h, ho]

/-- Claim C3, witness: the amended theorem evaluated at a concrete input. -/
theorem byte_decode_mod256_witness :
    getDataUChar ⟨"/b", [.intArg 300]⟩ 0 7 < 256 ∧
    (getDataUChar ⟨"/b", [.intArg 300]⟩ 0 7 : Int) = 300 % 256 := by
  have h := byte_decode_mod256 ⟨"/b", [.intArg 300]⟩ 0 7 (by decide)
  exact ⟨h.1, h.2.1 300 (by decide)⟩

/-! Claim C4: string decoding. -/

/-- Claim C4, counterexample: for a wire type other than string, float or
int32, the string decoder performs no assignment, so a destination whose
prior value is "hello" stays "hello" instead of becoming the empty
string. -/
theorem string_decode_other_cex :
    getDataString ⟨"/s", [.otherArg]⟩ 0 "hello" = "hello" ∧
    "hello" ≠ "" := by
  constructor
  · rfl
  · decide

/-- Claim C4 (amended): for a message with at least one argument, decoding a
text destination passes a wire string through unchanged and stringifies a
wire float or wire integer with the default numeric formatting; for any
other wire type the destination is left unchanged (so it is the empty
string only when it was freshly default-initialized, as in
function/lambda/member dispatch), not reset to empty. -/
theorem string_decode_branches (msg : OscMessage) (index : Nat)
    (dest : String) (h : msg.args.length ≠ 0) :
    (∀ s : String, argAt msg index = .stringArg s →
      getDataString msg index dest = s) ∧
    (∀ q : ℚ, argAt msg index = .floatArg q →
      getDataString msg index dest = ofToStringFloat q) ∧
    (∀ v : Int, argAt msg index = .intArg v →
      getDataString msg index dest = ofToStringInt v) ∧
    (argAt msg index = .otherArg → getDataString msg index dest = dest) := by
  refine ⟨?_, ?_, ?_, ?_⟩
  · intro s hs
    unfold getDataString
    rw [if_neg h, hs]
  · intro q hq
    unfold getDataString
    rw [if_neg h, hq]
  · intro v hv
    unfold getDataString
    rw [if_neg h, hv]
  · intro ho
    unfold getDataString
    rw [if_neg h, ho]

/-- Claim C4, witness: the amended theorem evaluated at concrete inputs. -/
theorem string_decode_branches_witness :
    getDataString ⟨"/s", [.stringArg "abc"]⟩ 0 "zzz" = "abc" ∧
    getDataString ⟨"/s", [.intArg 5]⟩ 0 "zzz" = ofToStringInt 5 := by
  constructor
  · exact (string_decode_branches ⟨"/s", [.stringArg "abc"]⟩ 0 "zzz"
      (by decide)).1 "abc" (by decide)
  · exact (string_decode_branches ⟨"/s", [.intArg 5]⟩ 0 "zzz"
      (by decide)).2.2.1 5 (by decide)

/-! Claim C5: integer decoding from a message with zero arguments. -/

/-- Claim C5, counterexample: with zero wire arguments the decoder body is
skipped entirely, so a bound int variable whose prior value is 7 keeps the
value 7 — the value 0 is NOT written to it. -/
theorem int_zero_args_cex :
    dispatchStore (fun _ => 7) (.var intTag 0) ⟨"/v", []⟩ 0 = 7 ∧
    (7 : Int) ≠ 0 := by
  constructor
  · rfl
  · decide

/-- Claim C5 (amended): decoding an integer destination from a message with
zero wire arguments writes nothing: the integer decoder returns its
destination unchanged, a variable listener leaves the whole store
untouched, and a function/lambda listener delivers 0 only because the
argument it passes was default-initialized to 0 before the decoder ran. -/
theorem int_missing_args (msg : OscMessage) (h : msg.args.length = 0) :
    (∀ (index : Nat) (dest : Int), getDataInt msg index dest = dest) ∧
    funcDeliveredInt msg = 0 ∧
    (∀ (s : Store) (t loc : Nat), dispatchStore s (.var t loc) msg = s) := by
  refine ⟨?_, ?_, ?_⟩
  · intro index dest
    unfold getDataInt
    rw [if_pos h]
  · unfold funcDeliveredInt getDataInt
    rw [if_pos h]
  · intro s t loc
    by_cases ht : t = intTag
    · funext n
      by_cases hn : n = loc
      · simp [dispatchStore, ht, hn, getDataInt, h]
      · simp [dispatchStore, ht, hn]
    · simp [dispatchStore, ht]

/-- Claim C5, witness: the amended theorem evaluated at a concrete input. -/
theorem int_missing_args_witness :
    getDataInt ⟨"/v", []⟩ 0 7 = 7 ∧ funcDeliveredInt ⟨"/v", []⟩ = 0 := by
  have h := int_missing_args ⟨"/v", []⟩ rfl
  exact ⟨h.1 0 7, h.2.1⟩

/-! Claim C6: fixed-arity aggregate decoding. -/

/-- Claim C6, counterexample: with fewer arguments than the arity, the
aggregate decoder leaves the destination at its PRIOR value, which differs
from the default-constructed value whenever the prior value is not the
default: a 2-vector variable holding (5, 6) stays (5, 6). -/
theorem aggregate_short_cex :
    getDataVec2 ⟨"/a", [.floatArg 1]⟩ 0 ⟨5, 6⟩ = ⟨5, 6⟩ ∧
    (⟨5, 6⟩ : Vec2) ≠ vec2Default := by
  constructor
  · rfl
  · decide

/-- Claim C6 (amended): when decoding a fixed-arity aggregate of arity N
(N in 2, 3, 4, 9, 12), the guard compares the message's TOTAL argument
count with N.  With fewer than N total arguments the destination is left
unmodified (it equals the default-constructed value only when it was
freshly default-initialized, as in function dispatch); with at least N
arguments every component is assigned from its slot (for the 4x4 matrix
only the first 12 of the 16 entries are assigned, the rest keep their
prior values).  The destination is never partially filled with data. -/
theorem aggregate_all_or_nothing (msg : OscMessage) (index : Nat) :
    (∀ d : Vec2, msg.args.length < 2 → getDataVec2 msg index d = d) ∧
    (∀ d : Vec2, 2 ≤ msg.args.length → getDataVec2 msg index d =
      ⟨getDataFloat msg index d.x, getDataFloat msg (index + 1) d.y⟩) ∧
    (∀ d : Vec3, msg.args.length < 3 → getDataVec3 msg index d = d) ∧
    (∀ d : Vec3, 3 ≤ msg.args.length → getDataVec3 msg index d =
      ⟨getDataFloat msg index d.x, getDataFloat msg (index + 1) d.y,
       getDataFloat msg (index + 2) d.z⟩) ∧
    (∀ d : Vec4, msg.args.length < 4 → getDataVec4 msg index d = d) ∧
    (∀ d : Vec4, 4 ≤ msg.args.length → getDataVec4 msg index d =
      ⟨getDataFloat msg index d.x, getDataFloat msg (index + 1) d.y,
       getDataFloat msg (index + 2) d.z, getDataFloat msg (index + 3) d.w⟩) ∧
    (∀ d : Mat3, msg.args.length < 9 → getDataMat3 msg index d = d) ∧
    (∀ d : Mat3, 9 ≤ msg.args.length → (getDataMat3 msg index d).entries =
      (List.range 9).map
        (fun i => getDataFloat msg (index + i) (d.entries.getD i 0))) ∧
    (∀ d : Mat4, msg.args.length < 12 → getDataMat4 msg index d = d) ∧
    (∀ d : Mat4, 12 ≤ msg.args.length → (getDataMat4 msg index d).entries =
      (List.range 16).map
        (fun i => if i < 12 then getDataFloat msg (index + i) (d.entries.getD i 0)
                  else d.entries.getD i 0)) := by
  refine ⟨?_, ?_, ?_, ?_, ?_, ?_, ?_, ?_, ?_, ?_⟩
  · intro d hd
    simp [getDataVec2, Nat.not_le.mpr hd]
  · intro d hd
    simp [getDataVec2, hd]
  · intro d hd
    simp [getDataVec3, Nat.not_le.mpr hd]
  · intro d hd
    simp [getDataVec3, hd]
  · intro d hd
    simp [getDataVec4, Nat.not_le.mpr hd]
  · intro d hd
    simp [getDataVec4, hd]
  · intro d hd
    simp [getDataMat3, Nat.not_le.mpr hd]
  · intro d hd
    simp [getDataMat3, hd]
  · intro d hd
    simp [getDataMat4, Nat.not_le.mpr hd]
  · intro d hd
    simp [getDataMat4, hd]

/-- Claim C6, witness: a short message leaves a 2-vector untouched and a
long enough message fills it completely. -/
theorem aggregate_all_or_nothing_witness :
    getDataVec2 ⟨"/a", [.floatArg 1]⟩ 0 ⟨5, 6⟩ = ⟨5, 6⟩ ∧
    getDataVec2 ⟨"/a", [.floatArg 1, .floatArg 2]⟩ 0 ⟨5, 6⟩ = ⟨1, 2⟩ := by
  have h1 := (aggregate_all_or_nothing ⟨"/a", [.floatArg 1]⟩ 0).1
    ⟨5, 6⟩ (by decide)
  have h2 := (aggregate_all_or_nothing
    ⟨"/a", [.floatArg 1, .floatArg 2]⟩ 0).2.1 ⟨5, 6⟩ (by decide)
  refine ⟨h1, ?_⟩
  rw [h2]
  decide

/-! Claim C2: ordered-sequence decoding. -/

/-- Claim C2: decoding an ordered-sequence destination whose element type
has arity k (2, 3, 4, 9, 12 for the aggregates, 1 for scalars) resizes the
destination to exactly (total arguments) / k elements and decodes element i
starting at argument index i * k; trailing arguments that do not fill a
complete element are dropped. -/
theorem sequence_decode_floor_arity (msg : OscMessage) (dv2 : List Vec2)
    (dv3 : List Vec3) (dv4 : List Vec4) (dm3 : List Mat3) (dm4 : List Mat4)
    (di : List Int) :
    (getDataContainerVec3 msg dv3).length = msg.args.length / 3 ∧
    (∀ i, i < msg.args.length / 3 →
      (getDataContainerVec3 msg dv3).getD i vec3Default =
        getDataVec3 msg (i * 3)
          ((resize dv3 (msg.args.length / 3) vec3Default).getD i vec3Default)) ∧
    (getDataContainerInt msg di).length = msg.args.length / 1 ∧
    (∀ i, i < msg.args.length →
      (getDataContainerInt msg di).getD i 0 =
        getDataInt msg i ((resize di msg.args.length 0).getD i 0)) ∧
    (getDataContainerVec2 msg dv2).length = msg.args.length / 2 ∧
    (∀ i, i < msg.args.length / 2 →
      (getDataContainerVec2 msg dv2).getD i vec2Default =
        getDataVec2 msg (i * 2)
          ((resize dv2 (msg.args.length / 2) vec2Default).getD i vec2Default)) ∧
    (getDataContainerVec4 msg dv4).length = msg.args.length / 4 ∧
    (∀ i, i < msg.args.length / 4 →
      (getDataContainerVec4 msg dv4).getD i vec4Default =
        getDataVec4 msg (i * 4)
          ((resize dv4 (msg.args.length / 4) vec4Default).getD i vec4Default)) ∧
    (getDataContainerMat3 msg dm3).length = msg.args.length / 9 ∧
    (∀ i, i < msg.args.length / 9 →
      (getDataContainerMat3 msg dm3).getD i mat3Default =
        getDataMat3 msg (i * 9)
          ((resize dm3 (msg.args.length / 9) mat3Default).getD i mat3Default)) ∧
    (getDataContainerMat4 msg dm4).length = msg.args.length / 12 ∧
    (∀ i, i < msg.args.length / 12 →
      (getDataContainerMat4 msg dm4).getD i mat4Default =
        getDataMat4 msg (i * 12)
          ((resize dm4 (msg.args.length / 12) mat4Default).getD i mat4Default)) := by
  refine ⟨getVec_length _ _ _ _ _, fun i hi => getVec_getD _ _ _ _ _ i hi,
    ?_, fun i hi => getDataContainer_getD _ _ _ _ i hi,
    getVec_length _ _ _ _ _, fun i hi => getVec_getD _ _ _ _ _ i hi,
    getVec_length _ _ _ _ _, fun i hi => getVec_getD _ _ _ _ _ i hi,
    getVec_length _ _ _ _ _, fun i hi => getVec_getD _ _ _ _ _ i hi,
    getVec_length _ _ _ _ _, fun i hi => getVec_getD _ _ _ _ _ i hi⟩
  have hlen := getDataContainer_length getDataInt 0 msg di
  simpa [getDataContainerInt, Nat.div_one] using hlen

/-- Claim C2, witness: a message with 7 float arguments decoded into a
sequence of 3-component vectors yields exactly 2 elements, the second one
decoded from argument index 3, discarding the trailing argument. -/
theorem sequence_decode_floor_arity_witness :
    (getDataContainerVec3 ⟨"/v", [.floatArg 1, .floatArg 2, .floatArg 3,
        .floatArg 4, .floatArg 5, .floatArg 6, .floatArg 7]⟩ []).length = 2 ∧
    (getDataContainerVec3 ⟨"/v", [.floatArg 1, .floatArg 2, .floatArg 3,
        .floatArg 4, .floatArg 5, .floatArg 6, .floatArg 7]⟩ []).getD 1
      vec3Default = ⟨4, 5, 6⟩ := by
  have h := sequence_decode_floor_arity ⟨"/v", [.floatArg 1, .floatArg 2,
    .floatArg 3, .floatArg 4, .floatArg 5, .floatArg 6, .floatArg 7]⟩
    [] [] [] [] [] []
  refine ⟨h.1, ?_⟩
  rw [h.2.1 1 (by decide)]
  decide

/-! Registry helper lemmas. -/

lemma addListener_find (m : AddressMap) (a : String) (l : ofxOscListener) :
    mapFind (addListener m a l) a = some (mapGet m a ++ [l]) := by
  induction m with
  | nil => simp [addListener, mapFind, mapGet]
  | cons p rest ih =>
    obtain ⟨k, v⟩ := p
    by_cases hk : k = a
    · subst hk
      simp [addListener, mapFind, mapGet]
    · simp [addListener, mapFind, hk, ih, mapGet]

lemma searchAndRemove_find (m : AddressMap) (a : String)
    (test : ofxOscListener) :
    mapFind (searchAndRemove m a test) a =
      (mapFind m a).map (fun ls => ls.filter (fun l => ! l.compare test)) := by
  induction m with
  | nil => simp [searchAndRemove, mapFind]
  | cons p rest ih =>
    obtain ⟨k, v⟩ := p
    by_cases hk : k = a
    · subst hk
      simp [searchAndRemove, mapFind]
    · simp [searchAndRemove, mapFind, hk, ih]

lemma stepRecv_fields (r : ofxEasyOscReceiver) (msg : OscMessage) :
    stepRecv r msg =
      { r with incomingMessages :=
          r.incomingMessages ++ (if r.bCount then [msg.address] else []) } := by
  cases r with
  | mk am dl im bc =>
    cases bc
    · simp [stepRecv]
    · simp [stepRecv]

lemma updateLoop_fst (msgs : List OscMessage) :
    ∀ (r : ofxEasyOscReceiver) (s : Store),
      (updateLoop r s msgs).1 =
        { r with incomingMessages := r.incomingMessages ++
            (if r.bCount then msgs.map OscMessage.address else []) } := by
  induction msgs with
  | nil =>
    intro r s
    simp [updateLoop]
  | cons msg rest ih =>
    intro r s
    have h1 : (updateLoop r s (msg :: rest)).1 =
        (updateLoop (stepRecv r msg) (stepStore r s msg) rest).1 := rfl
    rw [h1, ih, stepRecv_fields]
    by_cases hb : r.bCount
    · simp [hb]
    · simp [hb]

/-! Claim C1: registration order determines dispatch order. -/

/-- Claim C1: registering L1 then L2 on the same address appends both, in
order, to that address's existing listener list, and polling one message
with that address produces the dispatch trace of exactly that list in
order — so L1's delivery happens before L2's. -/
theorem dispatch_in_registration_order (m : AddressMap)
    (dflt : Option ofxOscListener) (cnt : List String) (b : Bool) (s : Store)
    (L1 L2 : ofxOscListener) (msg : OscMessage) :
    mapFind (addListener (addListener m msg.address L1) msg.address L2)
        msg.address = some (mapGet m msg.address ++ [L1, L2]) ∧
    (ofxEasyOscReceiver.update
        ⟨addListener (addListener m msg.address L1) msg.address L2, dflt,
          cnt, b⟩ s [msg]).2.2 =
      (mapGet m msg.address ++ [L1, L2]).map (fun l => (l, msg)) := by
  have h1 : mapFind (addListener (addListener m msg.address L1) msg.address L2)
      msg.address = some (mapGet m msg.address ++ [L1, L2]) := by
    simp [addListener_find, mapGet, List.append_assoc]
  refine ⟨h1, ?_⟩
  unfold ofxEasyOscReceiver.update updateLoop
  simp only [stepEvents, h1, updateLoop]
  simp

/-! Claim C7: arrival-count queries. -/

/-- Claim C7: after a poll, `gotMessage` returns the sentinel -1 (distinct
from any real zero count) whenever counting is disabled, regardless of
which messages were dispatched, and with counting enabled it returns
exactly how many of the polled messages carried the queried address. -/
theorem got_message_count_or_sentinel (r : ofxEasyOscReceiver) (s : Store)
    (msgs : List OscMessage) (a : String) :
    ((r.update s msgs).1.gotMessage a =
      if r.bCount then ((msgs.map OscMessage.address).count a : Int)
      else -1) ∧
    (-1 : Int) ≠ 0 := by
  constructor
  · unfold ofxEasyOscReceiver.update
    rw [updateLoop_fst]
    unfold ofxEasyOscReceiver.gotMessage
    by_cases hb : r.bCount
    · simp [hb]
    · simp [hb]
  · decide

/-- Claim C7, witness: with counting enabled, polling two messages to /x
and one to /y yields count 2 for /x, 1 for /y, 0 for the unseen /z; with
counting disabled the same query returns -1 even though /x was polled. -/
theorem got_message_count_or_sentinel_witness :
    (ofxEasyOscReceiver.update ⟨[], none, [], true⟩ (fun _ => 0)
      [⟨"/x", []⟩, ⟨"/x", []⟩, ⟨"/y", []⟩]).1.gotMessage "/x" = 2 ∧
    (ofxEasyOscReceiver.update ⟨[], none, [], true⟩ (fun _ => 0)
      [⟨"/x", []⟩, ⟨"/x", []⟩, ⟨"/y", []⟩]).1.gotMessage "/y" = 1 ∧
    (ofxEasyOscReceiver.update ⟨[], none, [], true⟩ (fun _ => 0)
      [⟨"/x", []⟩, ⟨"/x", []⟩, ⟨"/y", []⟩]).1.gotMessage "/z" = 0 ∧
    (ofxEasyOscReceiver.update ⟨[], none, [], false⟩ (fun _ => 0)
      [⟨"/x", []⟩]).1.gotMessage "/x" = -1 := by
  have hx := (got_message_count_or_sentinel ⟨[], none, [], true⟩ (fun _ => 0)
    [⟨"/x", []⟩, ⟨"/x", []⟩, ⟨"/y", []⟩] "/x").1
  have hy := (got_message_count_or_sentinel ⟨[], none, [], true⟩ (fun _ => 0)
    [⟨"/x", []⟩, ⟨"/x", []⟩, ⟨"/y", []⟩] "/y").1
  have hz := (got_message_count_or_sentinel ⟨[], none, [], true⟩ (fun _ => 0)
    [⟨"/x", []⟩, ⟨"/x", []⟩, ⟨"/y", []⟩] "/z").1
  have hs := (got_message_count_or_sentinel ⟨[], none, [], false⟩ (fun _ => 0)
    [⟨"/x", []⟩] "/x").1
  refine ⟨?_, ?_, ?_, ?_⟩
  · rw [hx]; decide
  · rw [hy]; decide
  · rw [hz]; decide
  · rw [hs]; decide

/-! Claim C8: clearing of the arrival counter. -/

/-- Claim C8, counterexample: with counting disabled, a poll does NOT leave
the previously recorded counter contents unchanged — `update` clears the
multiset unconditionally at the top, so a counter holding /x is emptied
even by a poll with no pending messages. -/
theorem counter_cleared_cex :
    (ofxEasyOscReceiver.update ⟨[], none, ["/x"], false⟩ (fun _ => 0)
      []).1.incomingMessages ≠ ["/x"] := by
  simp [ofxEasyOscReceiver.update, updateLoop]

/-- Claim C8 (amended): at the start of `update` the arrival counter is
cleared unconditionally, whether or not counting is enabled; after the
poll it holds the polled addresses when counting is enabled and is empty
otherwise. -/
theorem counter_cleared_unconditionally (r : ofxEasyOscReceiver) (s : Store)
    (msgs : List OscMessage) :
    (r.update s msgs).1.incomingMessages =
      if r.bCount then msgs.map OscMessage.address else [] := by
  unfold ofxEasyOscReceiver.update
  rw [updateLoop_fst]
  simp

/-! Claim C9: unregistration matching. -/

lemma dispatchStore_preserve (s : Store) (l : ofxOscListener)
    (msg : OscMessage) (loc : Nat)
    (h : l.compare (.var intTag loc) = false) :
    dispatchStore s l msg loc = s loc := by
  cases l with
  | var t l2 =>
    simp only [ofxOscListener.compare, Bool.and_eq_false_iff, beq_eq_false_iff_ne,
      ne_eq] at h
    by_cases ht : t = intTag
    · have hl2 : l2 ≠ loc := by
        rcases h with h | h
        · exact absurd ht h
        · exact h
      have hloc : ¬loc = l2 := fun hc => hl2 hc.symm
      simp [dispatchStore, ht, hloc]
    · simp [dispatchStore, ht]
  | func _ _ => rfl
  | lambda _ _ => rfl
  | member _ _ _ => rfl

lemma foldl_dispatch_preserve (msg : OscMessage) (loc : Nat)
    (ls : List ofxOscListener) :
    ∀ s : Store, (∀ l ∈ ls, l.compare (.var intTag loc) = false) →
      (ls.foldl (fun st l => dispatchStore st l msg) s) loc = s loc := by
  induction ls with
  | nil =>
    intro s _
    rfl
  | cons l rest ih =>
    intro s h
    simp only [List.foldl_cons]
    rw [ih _ (fun x hx => h x (List.mem_cons_of_mem _ hx))]
    exact dispatchStore_preserve s l msg loc (h l (List.mem_cons_self l rest))

/-- Claim C9: the unregistration equality rule — a variable listener
matches exactly a variable listener of the same instantiated type holding
the same storage location, a function listener matches exactly on the
function pointer, a member listener exactly on target object and member
pointer, and a lambda listener matches nothing, so `remove(address, dest)`
never removes a lambda; `searchAndRemove` removes from the address's list
exactly the listeners comparing equal to the test object; consequently,
after registering int variable x on an address and then unregistering it,
polling a message with that address leaves x unchanged. -/
theorem unregister_matching (m : AddressMap) (dflt : Option ofxOscListener)
    (cnt : List String) (b : Bool) (s : Store) (loc : Nat)
    (msg : OscMessage) :
    (∀ t1 l1 t2 l2 : Nat, (ofxOscListener.var t1 l1).compare (.var t2 l2) =
      (t1 == t2 && l1 == l2)) ∧
    (∀ t1 p1 t2 p2 : Nat, (ofxOscListener.func t1 p1).compare (.func t2 p2) =
      (t1 == t2 && p1 == p2)) ∧
    (∀ t1 o1 p1 t2 o2 p2 : Nat,
      (ofxOscListener.member t1 o1 p1).compare (.member t2 o2 p2) =
        (t1 == t2 && (o1 == o2 && p1 == p2))) ∧
    (∀ (t i : Nat) (l : ofxOscListener),
      (ofxOscListener.lambda t i).compare l = false) ∧
    (∀ (a : String) (test : ofxOscListener),
      mapFind (searchAndRemove m a test) a =
        (mapFind m a).map (fun ls => ls.filter (fun l => ! l.compare test))) ∧
    ((ofxEasyOscReceiver.update
        ⟨searchAndRemove (addListener m msg.address (.var intTag loc))
            msg.address (.var intTag loc), dflt, cnt, b⟩ s [msg]).2.1) loc =
      s loc := by
  refine ⟨fun _ _ _ _ => rfl, fun _ _ _ _ => rfl, fun _ _ _ _ _ _ => rfl,
    ?_, fun a test => searchAndRemove_find m a test, ?_⟩
  · intro t i l
    cases l <;> rfl
  · have h2 : mapFind (searchAndRemove
        (addListener m msg.address (ofxOscListener.var intTag loc)) msg.address
        (ofxOscListener.var intTag loc)) msg.address =
      some ((mapGet m msg.address ++ [ofxOscListener.var intTag loc]).filter
        (fun l => ! l.compare (ofxOscListener.var intTag loc))) := by
      rw [searchAndRemove_find, addListener_find]
      rfl
    have h3 : (ofxEasyOscReceiver.update
        ⟨searchAndRemove (addListener m msg.address (ofxOscListener.var intTag loc))
            msg.address (ofxOscListener.var intTag loc), dflt, cnt, b⟩ s [msg]).2.1 =
        ((mapGet m msg.address ++ [ofxOscListener.var intTag loc]).filter
          (fun l => ! l.compare (ofxOscListener.var intTag loc))).foldl
          (fun st l => dispatchStore st l msg) s := by
      unfold ofxEasyOscReceiver.update updateLoop
      simp only [stepStore, h2, updateLoop]
    rw [h3]
    apply foldl_dispatch_preserve
    intro l hl
    have hmem := List.of_mem_filter hl
    simp only [Bool.not_eq_true'] at hmem
    exact hmem

/-- Claim C9, witness: after registering int variable at location 0 on /v
and unregistering it, polling a /v message carrying the integer 9 leaves
the location's value 7 unchanged. -/
theorem unregister_matching_witness :
    ((ofxEasyOscReceiver.update
        ⟨searchAndRemove (addListener [] "/v" (.var intTag 0)) "/v"
            (.var intTag 0), none, [], false⟩ (fun _ => 7)
        [⟨"/v", [.intArg 9]⟩]).2.1) 0 = 7 := by
  exact (unregister_matching [] none [] false (fun _ => 7) 0
    ⟨"/v", [.intArg 9]⟩).2.2.2.2.2

/-! Claim C10: method chaining of the registry operations. -/

/-- Claim C10: the claim states that `removeAll`, the three
`setDefaultListener` overloads and `removeDefaultListener` return the
receiver for chaining; in the code all five are declared with a reference
return type but their bodies end WITHOUT a return statement (undefined
behaviour in C++), unlike the `add`/`remove` overloads which do execute
`return *this;`.  The Bool component records whether the body executed a
return statement. -/
theorem chaining_return_missing (r : ofxEasyOscReceiver)
    (fptr id obj mf : Nat) :
    (r.removeAll).2 = false ∧
    (r.setDefaultListenerFunc fptr).2 = false ∧
    (r.setDefaultListenerLambda id).2 = false ∧
    (r.setDefaultListenerMember obj mf).2 = false ∧
    (r.removeDefaultListener).2 = false ∧
    (∀ (a : String) (l : ofxOscListener), (r.addL a l).2 = true) ∧
    (∀ (a : String) (t loc : Nat), (r.removeVar a t loc).2 = true) := by
  exact ⟨rfl, rfl, rfl, rfl, rfl, fun _ _ => rfl, fun _ _ _ => rfl⟩
